import Mathlib

/-!
Verification of the evaluation-result orchestration and persistence subsystem
of the psg-multilabel repository (`src/metrics/pipeline.py`).

Python dictionaries keyed by strings are embedded as association lists
(`List (String × α)`) with Python's semantics: lookup returns the value of
the first (unique) matching key, assignment `d[k] = v` updates the value in
place when the key is present and appends the pair at the end otherwise.
Floating-point metric values are embedded as rationals, and fallible
operations (Python exceptions) return `Except String`.
-/

namespace PSG

/-- Python dict lookup `d.get(k)` on an association list. -/
def alookup {α : Type} (k : String) : List (String × α) → Option α
  | [] => none
  | (k', v) :: rest => if k' = k then some v else alookup k rest

/-- Python dict assignment `d[k] = v`: update in place when `k` is present,
append at the end otherwise. -/
def ainsert {α : Type} (k : String) (v : α) : List (String × α) → List (String × α)
  | [] => [(k, v)]
  | (k', v') :: rest => if k' = k then (k', v) :: rest else (k', v') :: ainsert k v rest

/-- The keys of an association list, in order. -/
def akeys {α : Type} (l : List (String × α)) : List String := l.map Prod.fst

/-- One evaluation result for a (model, dataset) pair.

Modelled from the spec: the class `EvaluationPipelineResult` lives in
`metrics/evaluation.py`, which is not under `src/`; per the spec an
evaluation result carries, for each of the metrics accuracy, hamming loss
and F1, a fold-wise mean and standard deviation, and `describe_json`
exposes exactly the six fields below. -/
structure EvaluationPipelineResult where
  accuracy : ℚ
  accuracy_std : ℚ
  hamming_loss : ℚ
  hamming_loss_std : ℚ
  f1 : ℚ
  f1_std : ℚ
deriving DecidableEq, Repr

/-- Embeds `RawEvaluationResults` (`metrics/types.py`): a mapping from model name to a
mapping from dataset name to evaluation result. -/
abbrev RawEvaluationResults :=
  List (String × List (String × EvaluationPipelineResult))

/-- Embeds `MetricsPipelineRepository.add_result`: inserts the result under
`raw_evaluation_results[model_name][dataset_name]`, creating the inner
mapping when the model is new. -/
def add_result (model_name dataset_name : String) (result : EvaluationPipelineResult)
    (s : RawEvaluationResults) : RawEvaluationResults :=
  match alookup model_name s with
  | none => ainsert model_name [(dataset_name, result)] s
  | some inner => ainsert model_name (ainsert dataset_name result inner) s

/-- Embeds `MetricsPipelineRepository.result_already_exists`: false when the model
key is absent, false when the dataset key is absent in the inner mapping,
true otherwise. -/
def result_already_exists (model_name dataset_name : String)
    (s : RawEvaluationResults) : Bool :=
  match alookup model_name s with
  | none => false
  | some inner => (alookup dataset_name inner).isSome

/-- Lookup of the stored result for one (model, dataset) pair. -/
def lookup_result (model_name dataset_name : String)
    (s : RawEvaluationResults) : Option EvaluationPipelineResult :=
  (alookup model_name s).bind (alookup dataset_name)

/-- Well-formedness of a store, as maintained by the Python dicts: outer keys
unique, inner keys unique, and no model maps to an empty inner dict (the
store is only ever populated through `add_result`). -/
def StoreWF (s : RawEvaluationResults) : Prop :=
  (akeys s).Nodup ∧ ∀ p ∈ s, (akeys p.2).Nodup ∧ p.2 ≠ []

/-- One row of the persisted flat table.

Modelled from the spec: the conversion helpers live in `metrics/support.py`,
which is not under `src/`; per the spec the persisted file has one row per
(model, dataset) pair whose columns are the model identifier, the dataset
identifier, and a mean and standard-deviation column for each metric. -/
structure FlatRow where
  model : String
  dataset : String
  accuracy : ℚ
  accuracy_std : ℚ
  hamming_loss : ℚ
  hamming_loss_std : ℚ
  f1 : ℚ
  f1_std : ℚ
deriving DecidableEq, Repr

/-- The flat-table row encoding one (model, dataset) pair's result. -/
def rowFor (model : String) (q : String × EvaluationPipelineResult) : FlatRow :=
  { model := model, dataset := q.1
    accuracy := q.2.accuracy, accuracy_std := q.2.accuracy_std
    hamming_loss := q.2.hamming_loss, hamming_loss_std := q.2.hamming_loss_std
    f1 := q.2.f1, f1_std := q.2.f1_std }

/-- The evaluation result a flat-table row carries. -/
def rowResult (row : FlatRow) : EvaluationPipelineResult :=
  { accuracy := row.accuracy, accuracy_std := row.accuracy_std
    hamming_loss := row.hamming_loss, hamming_loss_std := row.hamming_loss_std
    f1 := row.f1, f1_std := row.f1_std }

/-- Modelled from the spec: `evaluation_results_to_flat_table`
(`metrics/support.py`, not under `src/`) flattens the nested store into one
row per (model, dataset) pair, in iteration order. -/
def evaluation_results_to_flat_table (s : RawEvaluationResults) : List FlatRow :=
  s.flatMap fun p => p.2.map (rowFor p.1)

/-- Inserting one flat-table row into a store being rebuilt. -/
def rowStep (s : RawEvaluationResults) (row : FlatRow) : RawEvaluationResults :=
  add_result row.model row.dataset (rowResult row) s

/-- Modelled from the spec: `flat_table_to_evaluation_results`
(`metrics/support.py`, not under `src/`) rebuilds the nested store by
inserting the rows of the flat table in order. -/
def flat_table_to_evaluation_results (t : List FlatRow) : RawEvaluationResults :=
  t.foldl rowStep []

/-- Python's `str.endswith(suffix)`, as a suffix test on the character
list of the string. -/
def strEndsWith (s suffix : String) : Bool :=
  List.isSuffixOf suffix.data s.data

/-- The file system visible to the repository: each path either holds a
persisted flat table or no file. -/
abbrev FileSystem := String → Option (List FlatRow)

/-- Embeds `MetricsPipelineRepository`: the persisted-store path together with the
in-memory nested results. -/
structure MetricsPipelineRepository where
  csv_file_path : String
  raw_evaluation_results : RawEvaluationResults

/-- Embeds `MetricsPipelineRepository.load_from_file`: raises when the path does not
end in `.csv`; returns leaving the store untouched (with a warning) when the
file is absent; otherwise replaces the store with the decoded table. -/
def load_from_file (repo : MetricsPipelineRepository) (fs : FileSystem) :
    Except String MetricsPipelineRepository :=
  if ¬ strEndsWith repo.csv_file_path ".csv" then
    .error "only CSV files are supported"
  else
    match fs repo.csv_file_path with
    | none => .ok repo
    | some t =>
        .ok { repo with raw_evaluation_results := flat_table_to_evaluation_results t }

/-- Embeds `MetricsPipelineRepository.save_to_file`: encodes the store as a flat
table and overwrites the destination path (whole-file rewrite). -/
def save_to_file (repo : MetricsPipelineRepository) (fs : FileSystem) : FileSystem :=
  fun p =>
    if p = repo.csv_file_path then
      some (evaluation_results_to_flat_table repo.raw_evaluation_results)
    else fs p

/-- Embeds `MetricsPipelineRepository.__init__` with no `dataset` argument: starts
from an empty store and immediately calls `load_from_file`. -/
def MetricsPipelineRepository.construct (path : String) (fs : FileSystem) :
    Except String MetricsPipelineRepository :=
  load_from_file { csv_file_path := path, raw_evaluation_results := [] } fs

/-- One loaded dataset entry of `DatasetsLoader.loaded_datasets`: the feature
matrix `X`, the label matrix `y`, and the derived counts. Matrices are
row-lists of rationals. -/
structure LoadedDataset where
  X : List (List ℚ)
  y : List (List ℚ)
  rows : ℕ
  features_count : ℕ
  labels_count : ℕ
deriving DecidableEq, Repr

/-- The `shape[1]` of a row-list matrix: the length of its first row (0 when the
matrix has no rows). -/
def matWidth (X : List (List ℚ)) : ℕ := (X.head?.map List.length).getD 0

/-- The maximum absolute value observed in column `j` of `X` (0 for an empty
column). -/
def colMaxAbs (X : List (List ℚ)) (j : ℕ) : ℚ :=
  (X.map fun row => |row.getD j 0|).foldl max 0

/-- Embeds `sklearn.preprocessing.MaxAbsScaler().fit_transform(X)`: each feature
column is divided by its maximum absolute value; an all-zero column is left
unchanged (sklearn substitutes a unit scale for zero columns). -/
def maxAbsScale (X : List (List ℚ)) : List (List ℚ) :=
  X.map fun row =>
    row.mapIdx fun j x =>
      let m := colMaxAbs X j
      if m = 0 then x else x / m

/-- A dataset source: `skmultilearn.dataset.load_from_arff` for `.arff` paths
or `load_dataset(name, "undivided")` for named corpora; yields the pair
`(X, y)` or nothing when the identifier cannot be resolved. -/
abbrev DatasetSource := String → Option (List (List ℚ) × List (List ℚ))

/-- Embeds `DatasetsLoader.load`, one identifier: `.arff` paths go through
`load_from_arff` and are then scaled with `MaxAbsScaler` (the plain loader
scales this branch too); other names go through `load_dataset` and are
stored unscaled. An unresolvable identifier raises. -/
def DatasetsLoader.loadOne (src_arff src_named : DatasetSource) (dataset_name : String) :
    Except String (String × LoadedDataset) :=
  if strEndsWith dataset_name ".arff" then
    match src_arff dataset_name with
    | none => .error ("dataset `" ++ dataset_name ++ "` not found")
    | some Xy =>
        let X := maxAbsScale Xy.1
        .ok (dataset_name,
          { X := X, y := Xy.2, rows := X.length
            features_count := matWidth X, labels_count := matWidth Xy.2 })
  else
    match src_named dataset_name with
    | none => .error ("dataset `" ++ dataset_name ++ "` not found")
    | some Xy =>
        .ok (dataset_name,
          { X := Xy.1, y := Xy.2, rows := Xy.1.length
            features_count := matWidth Xy.1, labels_count := matWidth Xy.2 })

/-- Embeds `DatasetsLoader.load`: rebuilds `loaded_datasets` by loading every
configured identifier in order, stopping at the first failure. -/
def DatasetsLoader.loadAll (src_arff src_named : DatasetSource) :
    List String → Except String (List (String × LoadedDataset))
  | [] => .ok []
  | name :: rest => do
      let entry ← DatasetsLoader.loadOne src_arff src_named name
      let tail ← DatasetsLoader.loadAll src_arff src_named rest
      .ok (entry :: tail)

/-- Embeds `DatasetsLoaderNormalized.load`, one identifier: identical to the plain
loader on the `.arff` branch, and additionally applies `MaxAbsScaler` on the
named-corpus branch. -/
def DatasetsLoaderNormalized.loadOne (src_arff src_named : DatasetSource)
    (dataset_name : String) : Except String (String × LoadedDataset) :=
  if strEndsWith dataset_name ".arff" then
    match src_arff dataset_name with
    | none => .error ("dataset `" ++ dataset_name ++ "` not found")
    | some Xy =>
        let X := maxAbsScale Xy.1
        .ok (dataset_name,
          { X := X, y := Xy.2, rows := X.length
            features_count := matWidth X, labels_count := matWidth Xy.2 })
  else
    match src_named dataset_name with
    | none => .error ("dataset `" ++ dataset_name ++ "` not found")
    | some Xy =>
        let X := maxAbsScale Xy.1
        .ok (dataset_name,
          { X := X, y := Xy.2, rows := X.length
            features_count := matWidth X, labels_count := matWidth Xy.2 })

/-- Embeds `DatasetsLoaderNormalized.load` over the configured identifiers. -/
def DatasetsLoaderNormalized.loadAll (src_arff src_named : DatasetSource) :
    List String → Except String (List (String × LoadedDataset))
  | [] => .ok []
  | name :: rest => do
      let entry ← DatasetsLoaderNormalized.loadOne src_arff src_named name
      let tail ← DatasetsLoaderNormalized.loadAll src_arff src_named rest
      .ok (entry :: tail)

/-- The transformation the normalized loader applies on top of the plain
one, per loaded entry: a named-corpus entry gets per-column max-absolute
scaling (counts taken from the scaled matrix), while an `.arff` entry is
unchanged, because the plain loader already scales that branch. -/
def scaleEntry (p : String × LoadedDataset) : String × LoadedDataset :=
  if strEndsWith p.1 ".arff" then p
  else
    (p.1,
      { X := maxAbsScale p.2.X, y := p.2.y, rows := (maxAbsScale p.2.X).length
        features_count := matWidth (maxAbsScale p.2.X)
        labels_count := matWidth p.2.y })

/-- The loader object: configured identifiers plus the loaded mapping
(`loaded_datasets` is `{}` at construction). -/
structure DatasetsLoader where
  dataset_names : List String
  loaded_datasets : List (String × LoadedDataset)

/-- Embeds `DatasetsLoader.__init__`. -/
def DatasetsLoader.init (names : List String) : DatasetsLoader :=
  { dataset_names := names, loaded_datasets := [] }

/-- Embeds `DatasetsLoader.list_datasets`: raises when no datasets are loaded,
returns the loaded mapping otherwise. -/
def DatasetsLoader.list_datasets (l : DatasetsLoader) :
    Except String (List (String × LoadedDataset)) :=
  if l.loaded_datasets.length = 0 then .error "no datasets loaded"
  else .ok l.loaded_datasets

/-- The outcome of `MetricsPipeline.run`: the error it stopped with (if any),
and the observable state when it stopped — repository, file system and the
per-run evaluation/save counters. -/
structure RunOutcome (M : Type) where
  error : Option String
  repo : MetricsPipelineRepository
  fs : FileSystem
  evalCount : ℕ
  saveCount : ℕ

/-- The Evaluator: `EvaluationPipeline(model, n_folds).run(X, y)`, external to
this core; it returns an evaluation result or fails. -/
abbrev Evaluator (M : Type) :=
  M → ℕ → List (List ℚ) → List (List ℚ) → Except String EvaluationPipelineResult

/-- The body of the nested loop of `MetricsPipeline.run` for one
(model, dataset) pair: once a failure happened nothing further runs; a pair
already in the store is skipped; otherwise the Evaluator runs, the result is
recorded with `add_result` and the store persisted with `save_to_file`. -/
def stepPair {M : Type} (ev : Evaluator M) (n_folds : ℕ) (o : RunOutcome M)
    (p : (String × M) × String × LoadedDataset) : RunOutcome M :=
  if o.error.isSome then o
  else if result_already_exists p.1.1 p.2.1 o.repo.raw_evaluation_results then o
  else
    match ev p.1.2 n_folds p.2.2.X p.2.2.y with
    | .error e => { o with error := some e, evalCount := o.evalCount + 1 }
    | .ok result =>
        let repo' := { o.repo with
          raw_evaluation_results :=
            add_result p.1.1 p.2.1 result o.repo.raw_evaluation_results }
        { error := none, repo := repo', fs := save_to_file repo' o.fs
          evalCount := o.evalCount + 1, saveCount := o.saveCount + 1 }

/-- The cross product iterated by `MetricsPipeline.run`: models outer,
datasets inner, both in iteration order. -/
def crossPairs {M : Type} (models : List (String × M))
    (datasets : List (String × LoadedDataset)) :
    List ((String × M) × String × LoadedDataset) :=
  models.flatMap fun m => datasets.map fun d => (m, d)

/-- The pair loop of `MetricsPipeline.run`. -/
def runPairs {M : Type} (ev : Evaluator M) (n_folds : ℕ)
    (ps : List ((String × M) × String × LoadedDataset)) (o : RunOutcome M) :
    RunOutcome M :=
  ps.foldl (stepPair ev n_folds) o

/-- Embeds `MetricsPipeline.run`: reloads the repository from its file, obtains the
loaded datasets (`list_datasets` raises on an empty mapping), then walks the
models × datasets cross product evaluating every pair not already present.
The per-run evaluation and save counters start at zero. -/
def MetricsPipeline.run {M : Type} (models : List (String × M))
    (datasets : List (String × LoadedDataset)) (ev : Evaluator M) (n_folds : ℕ)
    (repo : MetricsPipelineRepository) (fs : FileSystem) : RunOutcome M :=
  match load_from_file repo fs with
  | .error e => { error := some e, repo := repo, fs := fs, evalCount := 0, saveCount := 0 }
  | .ok repo' =>
      if datasets.isEmpty then
        { error := some "no datasets loaded", repo := repo', fs := fs
          evalCount := 0, saveCount := 0 }
      else
        runPairs ev n_folds (crossPairs models datasets)
          { error := none, repo := repo', fs := fs, evalCount := 0, saveCount := 0 }

/-- Embeds `round(x, 4)` as Python documents it on decimal values: scale by 10^4,
round half to even, scale back. -/
def pythonRound4 (q : ℚ) : ℚ :=
  let scaled := q * 10000
  let f := ⌊scaled⌋
  let r := scaled - (f : ℚ)
  let n : ℤ :=
    if r < 1/2 then f
    else if 1/2 < r then f + 1
    else if Even f then f else f + 1
  (n : ℚ) / 10000

/-- One presentation row of `MetricsPipelineRepository.describe_dict`. -/
structure DescribeRow where
  model : String
  dataset : String
  accuracy : ℚ
  accuracy_std : ℚ
  hamming_loss : ℚ
  hamming_loss_std : ℚ
  f1 : ℚ
  f1_std : ℚ
deriving DecidableEq, Repr

/-- Embeds `MetricsPipelineRepository.describe_dict`: one presentation row per
(model, dataset) pair in iteration order, every metric rounded to 4 decimal
places. -/
def describe_dict (s : RawEvaluationResults) : List DescribeRow :=
  s.flatMap fun p =>
    p.2.map fun q =>
      { model := p.1, dataset := q.1
        accuracy := pythonRound4 q.2.accuracy
        accuracy_std := pythonRound4 q.2.accuracy_std
        hamming_loss := pythonRound4 q.2.hamming_loss
        hamming_loss_std := pythonRound4 q.2.hamming_loss_std
        f1 := pythonRound4 q.2.f1
        f1_std := pythonRound4 q.2.f1_std }

/-! ### Association-list lemmas -/

theorem alookup_ainsert_self {α : Type} (k : String) (v : α) (l : List (String × α)) :
    alookup k (ainsert k v l) = some v := by
  induction l with
  | nil => simp [ainsert, alookup]
  | cons hd tl ih =>
      by_cases h : hd.1 = k
      · simp [ainsert, alookup, h]
      · simp [ainsert, alookup, h, ih]

theorem akeys_cons {α : Type} (hd : String × α) (tl : List (String × α)) :
    akeys (hd :: tl) = hd.1 :: akeys tl := rfl

theorem alookup_ainsert_ne {α : Type} {k k' : String} (v : α) (l : List (String × α))
    (h : k' ≠ k) : alookup k' (ainsert k v l) = alookup k' l := by
  have hne : ¬ (k = k') := fun hh => h hh.symm
  induction l with
  | nil => simp [ainsert, alookup, hne]
  | cons hd tl ih =>
      by_cases hk : hd.1 = k
      · simp [ainsert, alookup, hk, hne]
      · simp [ainsert, alookup, hk, ih]

theorem mem_ainsert {α : Type} {k : String} {v : α} {l : List (String × α)}
    {p : String × α} (h : p ∈ ainsert k v l) : p = (k, v) ∨ p ∈ l := by
  induction l with
  | nil => simpa [ainsert] using h
  | cons hd tl ih =>
      by_cases hk : hd.1 = k
      · simp only [ainsert, hk, if_true] at h
        rcases List.mem_cons.mp h with h | h
        · left; rw [h, ← hk]
        · right; exact List.mem_cons_of_mem _ h
      · simp only [ainsert, hk, if_false] at h
        rcases List.mem_cons.mp h with h | h
        · right; exact h ▸ List.mem_cons_self _ _
        · rcases ih h with h | h
          · exact Or.inl h
          · exact Or.inr (List.mem_cons_of_mem _ h)

theorem akeys_ainsert_of_mem {α : Type} {k : String} (v : α) {l : List (String × α)}
    (h : k ∈ akeys l) : akeys (ainsert k v l) = akeys l := by
  induction l with
  | nil => simp [akeys] at h
  | cons hd tl ih =>
      by_cases hk : hd.1 = k
      · simp [ainsert, akeys, hk]
      · have h' : k ∈ akeys tl := by
          rcases List.mem_cons.mp (by rwa [akeys_cons] at h) with h' | h'
          · exact absurd h'.symm hk
          · exact h'
        simp only [ainsert, hk, if_false]
        rw [akeys_cons, akeys_cons, ih h']

theorem akeys_ainsert_of_not_mem {α : Type} {k : String} (v : α) {l : List (String × α)}
    (h : k ∉ akeys l) : akeys (ainsert k v l) = akeys l ++ [k] := by
  induction l with
  | nil => simp [ainsert, akeys]
  | cons hd tl ih =>
      have hk : hd.1 ≠ k := fun hh => h (by rw [akeys_cons, hh]; exact List.mem_cons_self _ _)
      have h' : k ∉ akeys tl := fun hh => h (by rw [akeys_cons]; exact List.mem_cons_of_mem _ hh)
      simp only [ainsert, hk, if_false]
      rw [akeys_cons, akeys_cons, ih h', List.cons_append]

theorem nodup_akeys_ainsert {α : Type} {k : String} (v : α) {l : List (String × α)}
    (h : (akeys l).Nodup) : (akeys (ainsert k v l)).Nodup := by
  by_cases hm : k ∈ akeys l
  · rw [akeys_ainsert_of_mem v hm]; exact h
  · rw [akeys_ainsert_of_not_mem v hm]
    simpa [List.nodup_append] using ⟨h, fun hh => hm hh⟩

theorem alookup_eq_none_of_not_mem {α : Type} {k : String} {l : List (String × α)}
    (h : k ∉ akeys l) : alookup k l = none := by
  induction l with
  | nil => rfl
  | cons hd tl ih =>
      have hk : hd.1 ≠ k := fun hh => h (by rw [akeys_cons, hh]; exact List.mem_cons_self _ _)
      have h' : k ∉ akeys tl := fun hh => h (by rw [akeys_cons]; exact List.mem_cons_of_mem _ hh)
      simp [alookup, hk, ih h']

theorem not_mem_of_alookup_eq_none {α : Type} {k : String} {l : List (String × α)}
    (h : alookup k l = none) : k ∉ akeys l := by
  induction l with
  | nil => simp [akeys]
  | cons hd tl ih =>
      by_cases hk : hd.1 = k
      · simp [alookup, hk] at h
      · simp only [alookup, hk, if_false] at h
        intro hm
        rcases List.mem_cons.mp (by rwa [akeys_cons] at hm) with h' | h'
        · exact hk h'.symm
        · exact ih h h'

theorem mem_of_alookup_eq_some {α : Type} {k : String} {v : α} {l : List (String × α)}
    (h : alookup k l = some v) : (k, v) ∈ l := by
  induction l with
  | nil => simp [alookup] at h
  | cons hd tl ih =>
      by_cases hk : hd.1 = k
      · simp only [alookup, hk, if_true, Option.some.injEq] at h
        have hh : hd = (k, v) := by
          cases hd
          simp only [Prod.mk.injEq]
          exact ⟨hk, h⟩
        exact hh ▸ List.mem_cons_self _ _
      · simp only [alookup, hk, if_false] at h
        exact List.mem_cons_of_mem _ (ih h)

/-! ### C7: add_result / result_already_exists -/

/-- C7: after `add_result m d r s`, the pair `(m, d)` exists, its stored entry
is `r` (even when an entry already existed: silent overwrite), every other
pair's entry is unchanged, and the store keeps its at-most-once-per-pair
shape. -/
theorem add_result_spec (m d : String) (r : EvaluationPipelineResult)
    (s : RawEvaluationResults) (hwf : StoreWF s) :
    result_already_exists m d (add_result m d r s) = true ∧
    lookup_result m d (add_result m d r s) = some r ∧
    (∀ m' d', (m', d') ≠ (m, d) →
      lookup_result m' d' (add_result m d r s) = lookup_result m' d' s) ∧
    StoreWF (add_result m d r s) := by
  have hlook : alookup m (add_result m d r s) =
      some (match alookup m s with
            | none => [(d, r)]
            | some inner => ainsert d r inner) := by
    unfold add_result
    cases h : alookup m s with
    | none => simp [h, alookup_ainsert_self]
    | some inner => simp [h, alookup_ainsert_self]
  refine ⟨?_, ?_, ?_, ?_⟩
  · unfold result_already_exists
    rw [hlook]
    cases h : alookup m s with
    | none => simp [h, alookup, Option.isSome]
    | some inner => simp [h, alookup_ainsert_self]
  · unfold lookup_result
    rw [hlook]
    cases h : alookup m s with
    | none => simp [h, alookup]
    | some inner => simp [h, alookup_ainsert_self]
  · intro m' d' hne
    by_cases hm : m' = m
    · subst hm
      have hd : d' ≠ d := fun hh => hne (by rw [hh])
      unfold lookup_result
      rw [hlook]
      have hd' : ¬ (d = d') := fun hh => hd hh.symm
      cases h : alookup m' s with
      | none => simp [h, alookup, hd']
      | some inner => simp [h, alookup_ainsert_ne r inner hd]
    · unfold lookup_result add_result
      cases h : alookup m s with
      | none => rw [alookup_ainsert_ne _ _ hm]
      | some inner => rw [alookup_ainsert_ne _ _ hm]
  · obtain ⟨hout, hin⟩ := hwf
    constructor
    · unfold add_result
      cases h : alookup m s with
      | none => exact nodup_akeys_ainsert _ hout
      | some inner => exact nodup_akeys_ainsert _ hout
    · intro p hp
      unfold add_result at hp
      cases h : alookup m s with
      | none =>
          rw [h] at hp
          rcases mem_ainsert hp with hp | hp
          · rw [hp]; exact ⟨by simp [akeys], by simp⟩
          · exact hin p hp
      | some inner =>
          rw [h] at hp
          rcases mem_ainsert hp with hp | hp
          · rw [hp]
            have hinner : (akeys inner).Nodup ∧ inner ≠ [] :=
              hin (m, inner) (mem_of_alookup_eq_some h)
            refine ⟨nodup_akeys_ainsert _ hinner.1, ?_⟩
            cases inner with
            | nil => exact absurd rfl hinner.2
            | cons a b => simp [ainsert]; split <;> simp
          · exact hin p hp

/-- Witness for C7 at a concrete store. -/
theorem add_result_spec_witness :
    let r0 : EvaluationPipelineResult := ⟨1, 0, 0, 0, 1, 0⟩
    let r1 : EvaluationPipelineResult := ⟨1/2, 0, 0, 0, 1/2, 0⟩
    let s : RawEvaluationResults := [("knn", [("birds", r0)])]
    StoreWF s ∧
    result_already_exists "knn" "scene" (add_result "knn" "scene" r1 s) = true ∧
    lookup_result "knn" "scene" (add_result "knn" "scene" r1 s) = some r1 := by
  intro r0 r1 s
  have hwf : StoreWF s := by
    constructor
    · simp [akeys, s]
    · intro p hp
      simp only [s, List.mem_singleton] at hp
      rw [hp]
      exact ⟨by simp [akeys], by simp⟩
  obtain ⟨h1, h2, _, _⟩ := add_result_spec "knn" "scene" r1 s hwf
  exact ⟨hwf, h1, h2⟩

/-! ### C6 / C10: load_from_file and construction -/

/-- C6: `load_from_file` raises exactly when the store path does not end in
`.csv`; with a `.csv` path whose file is absent it returns normally, and the
repository constructed over such a path holds the empty store. -/
theorem load_from_file_error_iff (repo : MetricsPipelineRepository) (fs : FileSystem) :
    ((∃ e, load_from_file repo fs = .error e) ↔
      strEndsWith repo.csv_file_path ".csv" = false) ∧
    (∀ path : String, strEndsWith path ".csv" = true → fs path = none →
      MetricsPipelineRepository.construct path fs =
        .ok { csv_file_path := path, raw_evaluation_results := [] }) := by
  constructor
  · constructor
    · intro ⟨e, he⟩
      cases h0 : strEndsWith repo.csv_file_path ".csv" with
      | false => rfl
      | true =>
          simp only [load_from_file, h0] at he
          cases hf : fs repo.csv_file_path <;> simp [hf] at he
    · intro h0
      refine ⟨"only CSV files are supported", ?_⟩
      simp [load_from_file, h0]
  · intro path hcsv habs
    simp [MetricsPipelineRepository.construct, load_from_file, hcsv, habs]

/-- Witness for C6: constructing over a `.csv` path with no file on disk
yields the empty store; a non-`.csv` path makes `load_from_file` raise. -/
theorem load_from_file_error_iff_witness :
    MetricsPipelineRepository.construct "metrics.csv" (fun _ => none) =
      .ok { csv_file_path := "metrics.csv", raw_evaluation_results := [] } :=
  (load_from_file_error_iff ⟨"metrics.csv", []⟩ (fun _ => none)).2
    "metrics.csv" (by decide) rfl

/-- C10: with a `.csv` path whose file is absent, `load_from_file` returns
leaving the repository exactly as it was: previously inserted entries are
preserved, not reset. -/
theorem load_from_file_missing_file_frame (repo : MetricsPipelineRepository)
    (fs : FileSystem) (hcsv : strEndsWith repo.csv_file_path ".csv" = true)
    (habs : fs repo.csv_file_path = none) :
    load_from_file repo fs = .ok repo := by
  simp [load_from_file, hcsv, habs]

/-- Witness for C10 at a repository whose in-memory store is nonempty. -/
theorem load_from_file_missing_file_frame_witness :
    load_from_file
      { csv_file_path := "metrics.csv"
        raw_evaluation_results := [("knn", [("birds", ⟨1, 0, 0, 0, 1, 0⟩)])] }
      (fun _ => none) =
    .ok { csv_file_path := "metrics.csv"
          raw_evaluation_results := [("knn", [("birds", ⟨1, 0, 0, 0, 1, 0⟩)])] } :=
  load_from_file_missing_file_frame _ _ (by decide) rfl

/-! ### C9: list_datasets pre-load guard -/

/-- C9: `list_datasets` raises on a freshly constructed catalog (before
`load`), and returns the loaded mapping after a `load` that populated at
least one dataset. -/
theorem list_datasets_guard (names : List String) (srcA srcN : DatasetSource)
    (l : List (String × LoadedDataset)) :
    (∃ e, (DatasetsLoader.init names).list_datasets = .error e) ∧
    (DatasetsLoader.loadAll srcA srcN names = .ok l → l ≠ [] →
      DatasetsLoader.list_datasets
        { dataset_names := names, loaded_datasets := l } = .ok l) := by
  constructor
  · exact ⟨"no datasets loaded", rfl⟩
  · intro _ hne
    simp [DatasetsLoader.list_datasets, List.length_eq_zero, hne]

/-- Witness for C9: loading one resolvable named dataset populates the
mapping and `list_datasets` then returns it. -/
theorem list_datasets_guard_witness :
    DatasetsLoader.loadAll (fun _ => none)
        (fun n => if n = "birds" then some ([[1]], [[1]]) else none) ["birds"] =
      .ok [("birds", ⟨[[1]], [[1]], 1, 1, 1⟩)] ∧
    DatasetsLoader.list_datasets
        { dataset_names := ["birds"]
          loaded_datasets := [("birds", ⟨[[1]], [[1]], 1, 1, 1⟩)] } =
      .ok [("birds", ⟨[[1]], [[1]], 1, 1, 1⟩)] := by
  have hload : DatasetsLoader.loadAll (fun _ => none)
      (fun n => if n = "birds" then some ([[1]], [[1]]) else none) ["birds"] =
      .ok [("birds", ⟨[[1]], [[1]], 1, 1, 1⟩)] := rfl
  exact ⟨hload,
    (list_datasets_guard ["birds"] (fun _ => none)
        (fun n => if n = "birds" then some ([[1]], [[1]]) else none)
        [("birds", ⟨[[1]], [[1]], 1, 1, 1⟩)]).2 hload (by decide)⟩

/-! ### Orchestrator lemmas -/

theorem runPairs_append {M : Type} (ev : Evaluator M) (nf : ℕ)
    (l₁ l₂ : List ((String × M) × String × LoadedDataset)) (o : RunOutcome M) :
    runPairs ev nf (l₁ ++ l₂) o = runPairs ev nf l₂ (runPairs ev nf l₁ o) :=
  List.foldl_append _ _ _ _

theorem runPairs_of_error {M : Type} (ev : Evaluator M) (nf : ℕ)
    (ps : List ((String × M) × String × LoadedDataset)) (o : RunOutcome M)
    (h : o.error.isSome = true) : runPairs ev nf ps o = o := by
  induction ps with
  | nil => rfl
  | cons hd tl ih =>
      show (hd :: tl).foldl (stepPair ev nf) o = o
      rw [List.foldl_cons]
      have hstep : stepPair ev nf o hd = o := by simp [stepPair, h]
      rw [hstep]
      exact ih

theorem runPairs_all_exist {M : Type} (ev : Evaluator M) (nf : ℕ)
    (ps : List ((String × M) × String × LoadedDataset)) (o : RunOutcome M)
    (herr : o.error = none)
    (hall : ∀ p ∈ ps,
      result_already_exists p.1.1 p.2.1 o.repo.raw_evaluation_results = true) :
    runPairs ev nf ps o = o := by
  induction ps with
  | nil => rfl
  | cons hd tl ih =>
      show (hd :: tl).foldl (stepPair ev nf) o = o
      rw [List.foldl_cons]
      have hstep : stepPair ev nf o hd = o := by
        simp [stepPair, herr, hall hd (List.mem_cons_self _ _)]
      rw [hstep]
      exact ih fun p hp => hall p (List.mem_cons_of_mem _ hp)

theorem mem_crossPairs {M : Type} {models : List (String × M)}
    {datasets : List (String × LoadedDataset)}
    {p : (String × M) × String × LoadedDataset}
    (h : p ∈ crossPairs models datasets) : p.1 ∈ models ∧ p.2 ∈ datasets := by
  simp only [crossPairs, List.mem_flatMap, List.mem_map] at h
  obtain ⟨m, hm, d, hd, rfl⟩ := h
  exact ⟨hm, hd⟩

/-! ### C1: idempotent skip and no recomputation of present pairs -/

theorem result_already_exists_eq_isSome (m d : String) (s : RawEvaluationResults) :
    result_already_exists m d s = (lookup_result m d s).isSome := by
  unfold result_already_exists lookup_result
  cases alookup m s <;> rfl

theorem result_already_exists_add_result_self (m d : String)
    (r : EvaluationPipelineResult) (s : RawEvaluationResults) :
    result_already_exists m d (add_result m d r s) = true := by
  unfold result_already_exists add_result
  cases h : alookup m s with
  | none => simp [h, alookup_ainsert_self, alookup]
  | some inner => simp [h, alookup_ainsert_self]

theorem lookup_result_add_result_ne (m d m' d' : String)
    (r : EvaluationPipelineResult) (s : RawEvaluationResults)
    (hne : (m', d') ≠ (m, d)) :
    lookup_result m' d' (add_result m d r s) = lookup_result m' d' s := by
  have hlook : alookup m (add_result m d r s) =
      some (match alookup m s with
            | none => [(d, r)]
            | some inner => ainsert d r inner) := by
    unfold add_result
    cases h : alookup m s with
    | none => simp [h, alookup_ainsert_self]
    | some inner => simp [h, alookup_ainsert_self]
  by_cases hm : m' = m
  · subst hm
    have hd : d' ≠ d := fun hh => hne (by rw [hh])
    have hd' : ¬ (d = d') := fun hh => hd hh.symm
    unfold lookup_result
    rw [hlook]
    cases h : alookup m' s with
    | none => simp [h, alookup, hd']
    | some inner => simp [h, alookup_ainsert_ne r inner hd]
  · unfold lookup_result add_result
    cases h : alookup m s with
    | none => rw [alookup_ainsert_ne _ _ hm]
    | some inner => rw [alookup_ainsert_ne _ _ hm]

theorem result_already_exists_add_result_mono (m d m' d' : String)
    (r : EvaluationPipelineResult) (s : RawEvaluationResults)
    (h : result_already_exists m d s = true) :
    result_already_exists m d (add_result m' d' r s) = true := by
  by_cases hp : ((m : String), (d : String)) = (m', d')
  · injection hp with h1 h2
    subst h1; subst h2
    exact result_already_exists_add_result_self m d r s
  · rw [result_already_exists_eq_isSome] at h ⊢
    rw [lookup_result_add_result_ne m' d' m d r s hp]
    exact h

theorem stepPair_skip_of_exists {M : Type} (ev : Evaluator M) (nf : ℕ)
    (o : RunOutcome M) (p : (String × M) × String × LoadedDataset)
    (herr : o.error = none)
    (hex : result_already_exists p.1.1 p.2.1 o.repo.raw_evaluation_results = true) :
    stepPair ev nf o p = o := by
  simp [stepPair, herr, hex]

theorem stepPair_preserves_exists {M : Type} (ev : Evaluator M) (nf : ℕ)
    (o : RunOutcome M) (p : (String × M) × String × LoadedDataset) (m d : String)
    (h : result_already_exists m d o.repo.raw_evaluation_results = true) :
    result_already_exists m d (stepPair ev nf o p).repo.raw_evaluation_results = true ∧
    lookup_result m d (stepPair ev nf o p).repo.raw_evaluation_results =
      lookup_result m d o.repo.raw_evaluation_results := by
  unfold stepPair
  cases herr : o.error.isSome with
  | true => simp [herr, h]
  | false =>
      simp only [herr, Bool.false_eq_true, if_false]
      cases hex : result_already_exists p.1.1 p.2.1 o.repo.raw_evaluation_results with
      | true => simp [h]
      | false =>
          simp only [Bool.false_eq_true, if_false]
          cases hev : ev p.1.2 nf p.2.2.X p.2.2.y with
          | error e => exact ⟨h, rfl⟩
          | ok r =>
              have hne : ((m : String), (d : String)) ≠ (p.1.1, p.2.1) := by
                intro hh
                injection hh with h1 h2
                subst h1; subst h2
                rw [h] at hex
                exact Bool.true_eq_false.mp hex
              refine ⟨?_, ?_⟩
              · exact result_already_exists_add_result_mono m d p.1.1 p.2.1 r _ h
              · exact lookup_result_add_result_ne p.1.1 p.2.1 m d r _ hne

theorem runPairs_preserves_exists {M : Type} (ev : Evaluator M) (nf : ℕ)
    (ps : List ((String × M) × String × LoadedDataset)) (m d : String) :
    ∀ o : RunOutcome M,
    result_already_exists m d o.repo.raw_evaluation_results = true →
    result_already_exists m d
      (runPairs ev nf ps o).repo.raw_evaluation_results = true ∧
    lookup_result m d (runPairs ev nf ps o).repo.raw_evaluation_results =
      lookup_result m d o.repo.raw_evaluation_results := by
  induction ps with
  | nil => intro o h; exact ⟨h, rfl⟩
  | cons q tl ih =>
      intro o h
      obtain ⟨h1, h2⟩ := stepPair_preserves_exists ev nf o q m d h
      obtain ⟨h3, h4⟩ := ih (stepPair ev nf o q) h1
      show result_already_exists m d
          ((q :: tl).foldl (stepPair ev nf) o).repo.raw_evaluation_results = true ∧ _
      rw [List.foldl_cons]
      exact ⟨h3, h4.trans h2⟩

/-- C1: when every (model, dataset) pair of the cross product already has an
entry in the store the repository holds after its reload, `run` invokes the
Evaluator zero times, performs zero saves, adds no result, and returns the
file system untouched; and, generally, a pair already present in the store
is never recomputed: the loop body skips a present pair leaving the whole
state (counters included) untouched, presence survives every loop step of a
mixed run, and an initially present pair's stored entry is exactly preserved
by the entire run. -/
theorem run_never_recomputes_existing {M : Type} (models : List (String × M))
    (datasets : List (String × LoadedDataset)) (ev : Evaluator M) (n_folds : ℕ)
    (repo repo' : MetricsPipelineRepository) (fs : FileSystem)
    (hload : load_from_file repo fs = .ok repo') :
    ((∀ mp ∈ models, ∀ dp ∈ datasets,
        result_already_exists mp.1 dp.1 repo'.raw_evaluation_results = true) →
      (MetricsPipeline.run models datasets ev n_folds repo fs).fs = fs ∧
      (MetricsPipeline.run models datasets ev n_folds repo fs).repo = repo' ∧
      (MetricsPipeline.run models datasets ev n_folds repo fs).evalCount = 0 ∧
      (MetricsPipeline.run models datasets ev n_folds repo fs).saveCount = 0) ∧
    (∀ (o : RunOutcome M) (p : (String × M) × String × LoadedDataset),
      o.error = none →
      result_already_exists p.1.1 p.2.1 o.repo.raw_evaluation_results = true →
      stepPair ev n_folds o p = o) ∧
    (∀ (o : RunOutcome M) (p : (String × M) × String × LoadedDataset) (m d : String),
      result_already_exists m d o.repo.raw_evaluation_results = true →
      result_already_exists m d
        (stepPair ev n_folds o p).repo.raw_evaluation_results = true) ∧
    (∀ m d : String,
      result_already_exists m d repo'.raw_evaluation_results = true →
      result_already_exists m d
        (MetricsPipeline.run models datasets ev n_folds
          repo fs).repo.raw_evaluation_results = true ∧
      lookup_result m d
        (MetricsPipeline.run models datasets ev n_folds
          repo fs).repo.raw_evaluation_results =
        lookup_result m d repo'.raw_evaluation_results) := by
  have hrun : MetricsPipeline.run models datasets ev n_folds repo fs =
      (if datasets.isEmpty then
        { error := some "no datasets loaded", repo := repo', fs := fs
          evalCount := 0, saveCount := 0 }
      else
        runPairs ev n_folds (crossPairs models datasets)
          { error := none, repo := repo', fs := fs, evalCount := 0, saveCount := 0 }) := by
    unfold MetricsPipeline.run
    rw [hload]
  refine ⟨?_, ?_, ?_, ?_⟩
  · intro hall
    by_cases hempty : datasets.isEmpty
    · rw [hrun, if_pos hempty]
      exact ⟨rfl, rfl, rfl, rfl⟩
    · rw [hrun, if_neg hempty]
      rw [runPairs_all_exist _ _ _ _ rfl ?_]
      · exact ⟨rfl, rfl, rfl, rfl⟩
      · intro p hp
        obtain ⟨hm, hd⟩ := mem_crossPairs hp
        exact hall p.1 hm p.2 hd
  · intro o p herr hex
    exact stepPair_skip_of_exists ev n_folds o p herr hex
  · intro o p m d h
    exact (stepPair_preserves_exists ev n_folds o p m d h).1
  · intro m d h
    by_cases hempty : datasets.isEmpty
    · rw [hrun, if_pos hempty]
      exact ⟨h, rfl⟩
    · rw [hrun, if_neg hempty]
      exact runPairs_preserves_exists ev n_folds (crossPairs models datasets) m d _ h

/-- Witness for C1: a mixed run — pair (A, D1) already stored, (A, D2)
absent — preserves the entry for (A, D1) exactly, and the all-present
one-pair run counts zero evaluations. -/
theorem run_never_recomputes_existing_witness :
    lookup_result "A" "D1"
      (MetricsPipeline.run [("A", ())]
          [("D1", ⟨[[1]], [[1]], 1, 1, 1⟩), ("D2", ⟨[[2]], [[1]], 1, 1, 1⟩)]
          (fun _ _ _ _ => .ok ⟨1, 0, 0, 0, 1, 0⟩) 10
          ⟨"m.csv", [("A", [("D1", ⟨1/2, 0, 0, 0, 1/2, 0⟩)])]⟩
          (fun _ => none)).repo.raw_evaluation_results =
      lookup_result "A" "D1" [("A", [("D1", ⟨1/2, 0, 0, 0, 1/2, 0⟩)])] ∧
    (MetricsPipeline.run [("A", ())] [("D1", ⟨[[1]], [[1]], 1, 1, 1⟩)]
        (fun _ _ _ _ => .ok ⟨1, 0, 0, 0, 1, 0⟩) 10
        ⟨"m.csv", [("A", [("D1", ⟨1, 0, 0, 0, 1, 0⟩)])]⟩
        (fun _ => none)).evalCount = 0 := by
  constructor
  · exact ((run_never_recomputes_existing [("A", ())]
      [("D1", ⟨[[1]], [[1]], 1, 1, 1⟩), ("D2", ⟨[[2]], [[1]], 1, 1, 1⟩)]
      (fun _ _ _ _ => .ok ⟨1, 0, 0, 0, 1, 0⟩) 10
      ⟨"m.csv", [("A", [("D1", ⟨1/2, 0, 0, 0, 1/2, 0⟩)])]⟩
      ⟨"m.csv", [("A", [("D1", ⟨1/2, 0, 0, 0, 1/2, 0⟩)])]⟩
      (fun _ => none) rfl).2.2.2 "A" "D1" (by decide)).2
  · exact (((run_never_recomputes_existing [("A", ())]
      [("D1", ⟨[[1]], [[1]], 1, 1, 1⟩)]
      (fun _ _ _ _ => .ok ⟨1, 0, 0, 0, 1, 0⟩) 10
      ⟨"m.csv", [("A", [("D1", ⟨1, 0, 0, 0, 1, 0⟩)])]⟩
      ⟨"m.csv", [("A", [("D1", ⟨1, 0, 0, 0, 1, 0⟩)])]⟩
      (fun _ => none) rfl).1 (by decide)).2.2.1)

/-! ### C5: failure propagation -/

/-- C5: when the pairs before some point all complete (outcome `s₁`) and the
Evaluator fails on the next pair not present in the store, `run` stops with
that error: the persisted file system is exactly the one `s₁` reached (every
pair completed before the failure remains persisted), the failing evaluation
is the only further Evaluator call, and no later pair is attempted or
saved. -/
theorem run_propagates_evaluator_failure {M : Type} (models : List (String × M))
    (datasets : List (String × LoadedDataset)) (ev : Evaluator M) (n_folds : ℕ)
    (repo repo' : MetricsPipelineRepository) (fs : FileSystem)
    (l₁ l₂ : List ((String × M) × String × LoadedDataset))
    (p : (String × M) × String × LoadedDataset) (e : String) (s₁ : RunOutcome M)
    (hload : load_from_file repo fs = .ok repo')
    (hne : datasets.isEmpty = false)
    (hsplit : crossPairs models datasets = l₁ ++ p :: l₂)
    (hs₁ : runPairs ev n_folds l₁
      { error := none, repo := repo', fs := fs, evalCount := 0, saveCount := 0 } = s₁)
    (herr : s₁.error = none)
    (hnotex : result_already_exists p.1.1 p.2.1 s₁.repo.raw_evaluation_results = false)
    (hev : ev p.1.2 n_folds p.2.2.X p.2.2.y = .error e) :
    MetricsPipeline.run models datasets ev n_folds repo fs =
      { error := some e, repo := s₁.repo, fs := s₁.fs
        evalCount := s₁.evalCount + 1, saveCount := s₁.saveCount } := by
  have hstep : stepPair ev n_folds s₁ p =
      { error := some e, repo := s₁.repo, fs := s₁.fs
        evalCount := s₁.evalCount + 1, saveCount := s₁.saveCount } := by
    simp [stepPair, herr, hnotex, hev]
  unfold MetricsPipeline.run
  rw [hload]
  simp only [hne, Bool.false_eq_true, if_false]
  rw [hsplit, runPairs_append, hs₁]
  show (p :: l₂).foldl (stepPair ev n_folds) s₁ = _
  rw [List.foldl_cons, hstep]
  exact runPairs_of_error _ _ _ _ rfl

/-- Witness for C5: three datasets, the Evaluator fails on the second; the
first pair's result is persisted, the third is never attempted. -/
theorem run_propagates_evaluator_failure_witness :
    (MetricsPipeline.run [("A", ())]
        [("D1", ⟨[[1]], [[1]], 1, 1, 1⟩), ("D2", ⟨[[2]], [[1]], 1, 1, 1⟩),
         ("D3", ⟨[[3]], [[1]], 1, 1, 1⟩)]
        (fun _ _ X _ => if X = [[2]] then .error "boom" else .ok ⟨1, 0, 0, 0, 1, 0⟩)
        10 ⟨"m.csv", []⟩ (fun _ => none)).error = some "boom" ∧
    (MetricsPipeline.run [("A", ())]
        [("D1", ⟨[[1]], [[1]], 1, 1, 1⟩), ("D2", ⟨[[2]], [[1]], 1, 1, 1⟩),
         ("D3", ⟨[[3]], [[1]], 1, 1, 1⟩)]
        (fun _ _ X _ => if X = [[2]] then .error "boom" else .ok ⟨1, 0, 0, 0, 1, 0⟩)
        10 ⟨"m.csv", []⟩ (fun _ => none)).evalCount = 2 ∧
    (MetricsPipeline.run [("A", ())]
        [("D1", ⟨[[1]], [[1]], 1, 1, 1⟩), ("D2", ⟨[[2]], [[1]], 1, 1, 1⟩),
         ("D3", ⟨[[3]], [[1]], 1, 1, 1⟩)]
        (fun _ _ X _ => if X = [[2]] then .error "boom" else .ok ⟨1, 0, 0, 0, 1, 0⟩)
        10 ⟨"m.csv", []⟩ (fun _ => none)).saveCount = 1 := by
  have h := run_propagates_evaluator_failure [("A", ())]
    [("D1", ⟨[[1]], [[1]], 1, 1, 1⟩), ("D2", ⟨[[2]], [[1]], 1, 1, 1⟩),
     ("D3", ⟨[[3]], [[1]], 1, 1, 1⟩)]
    (fun _ _ X _ => if X = [[2]] then .error "boom" else .ok ⟨1, 0, 0, 0, 1, 0⟩)
    10 ⟨"m.csv", []⟩ _ (fun _ => none)
    [(("A", ()), ("D1", ⟨[[1]], [[1]], 1, 1, 1⟩))]
    [(("A", ()), ("D3", ⟨[[3]], [[1]], 1, 1, 1⟩))]
    (("A", ()), ("D2", ⟨[[2]], [[1]], 1, 1, 1⟩)) "boom" _
    rfl rfl rfl rfl rfl (by decide) rfl
  rw [h]
  exact ⟨rfl, rfl, rfl⟩

/-! ### C4: full-run scenario -/

theorem pythonRound4_eq_self {q : ℚ} {z : ℤ} (h : q * 10000 = (z : ℚ)) :
    pythonRound4 q = q := by
  have h10 : (10000 : ℚ) ≠ 0 := by norm_num
  have hq : q = (z : ℚ) / 10000 := by rw [eq_div_iff h10]; exact h
  unfold pythonRound4
  rw [h]
  norm_num [Int.floor_intCast]
  rw [hq]

/-- C4: with models {A, B}, datasets {D1, D2}, an empty store and
`folds = 10`, `run` completes with exactly 4 store entries, exactly 4
Evaluator invocations and exactly 4 saves, the persisted file holds the 4
rows, and every entry exposes the six metric fields `accuracy`,
`accuracy_std`, `hamming_loss`, `hamming_loss_std`, `f1`, `f1_std`. -/
theorem run_full_scenario :
    (MetricsPipeline.run [("A", ()), ("B", ())]
        [("D1", ⟨[[1]], [[1]], 1, 1, 1⟩), ("D2", ⟨[[2]], [[1]], 1, 1, 1⟩)]
        (fun _ _ _ _ => .ok ⟨9/10, 1/100, 1/20, 1/200, 4/5, 3/100⟩) 10
        ⟨"m.csv", []⟩ (fun _ => none)).error = none ∧
    (MetricsPipeline.run [("A", ()), ("B", ())]
        [("D1", ⟨[[1]], [[1]], 1, 1, 1⟩), ("D2", ⟨[[2]], [[1]], 1, 1, 1⟩)]
        (fun _ _ _ _ => .ok ⟨9/10, 1/100, 1/20, 1/200, 4/5, 3/100⟩) 10
        ⟨"m.csv", []⟩ (fun _ => none)).evalCount = 4 ∧
    (MetricsPipeline.run [("A", ()), ("B", ())]
        [("D1", ⟨[[1]], [[1]], 1, 1, 1⟩), ("D2", ⟨[[2]], [[1]], 1, 1, 1⟩)]
        (fun _ _ _ _ => .ok ⟨9/10, 1/100, 1/20, 1/200, 4/5, 3/100⟩) 10
        ⟨"m.csv", []⟩ (fun _ => none)).saveCount = 4 ∧
    (MetricsPipeline.run [("A", ()), ("B", ())]
        [("D1", ⟨[[1]], [[1]], 1, 1, 1⟩), ("D2", ⟨[[2]], [[1]], 1, 1, 1⟩)]
        (fun _ _ _ _ => .ok ⟨9/10, 1/100, 1/20, 1/200, 4/5, 3/100⟩) 10
        ⟨"m.csv", []⟩ (fun _ => none)).repo.raw_evaluation_results =
      [("A", [("D1", ⟨9/10, 1/100, 1/20, 1/200, 4/5, 3/100⟩),
              ("D2", ⟨9/10, 1/100, 1/20, 1/200, 4/5, 3/100⟩)]),
       ("B", [("D1", ⟨9/10, 1/100, 1/20, 1/200, 4/5, 3/100⟩),
              ("D2", ⟨9/10, 1/100, 1/20, 1/200, 4/5, 3/100⟩)])] ∧
    (MetricsPipeline.run [("A", ()), ("B", ())]
        [("D1", ⟨[[1]], [[1]], 1, 1, 1⟩), ("D2", ⟨[[2]], [[1]], 1, 1, 1⟩)]
        (fun _ _ _ _ => .ok ⟨9/10, 1/100, 1/20, 1/200, 4/5, 3/100⟩) 10
        ⟨"m.csv", []⟩ (fun _ => none)).fs "m.csv" =
      some [⟨"A", "D1", 9/10, 1/100, 1/20, 1/200, 4/5, 3/100⟩,
            ⟨"A", "D2", 9/10, 1/100, 1/20, 1/200, 4/5, 3/100⟩,
            ⟨"B", "D1", 9/10, 1/100, 1/20, 1/200, 4/5, 3/100⟩,
            ⟨"B", "D2", 9/10, 1/100, 1/20, 1/200, 4/5, 3/100⟩] ∧
    describe_dict (MetricsPipeline.run [("A", ()), ("B", ())]
        [("D1", ⟨[[1]], [[1]], 1, 1, 1⟩), ("D2", ⟨[[2]], [[1]], 1, 1, 1⟩)]
        (fun _ _ _ _ => .ok ⟨9/10, 1/100, 1/20, 1/200, 4/5, 3/100⟩) 10
        ⟨"m.csv", []⟩ (fun _ => none)).repo.raw_evaluation_results =
      [⟨"A", "D1", 9/10, 1/100, 1/20, 1/200, 4/5, 3/100⟩,
       ⟨"A", "D2", 9/10, 1/100, 1/20, 1/200, 4/5, 3/100⟩,
       ⟨"B", "D1", 9/10, 1/100, 1/20, 1/200, 4/5, 3/100⟩,
       ⟨"B", "D2", 9/10, 1/100, 1/20, 1/200, 4/5, 3/100⟩] := by
  have hstore : (MetricsPipeline.run [("A", ()), ("B", ())]
      [("D1", ⟨[[1]], [[1]], 1, 1, 1⟩), ("D2", ⟨[[2]], [[1]], 1, 1, 1⟩)]
      (fun _ _ _ _ => .ok ⟨9/10, 1/100, 1/20, 1/200, 4/5, 3/100⟩) 10
      ⟨"m.csv", []⟩ (fun _ => none)).repo.raw_evaluation_results =
      [("A", [("D1", ⟨9/10, 1/100, 1/20, 1/200, 4/5, 3/100⟩),
              ("D2", ⟨9/10, 1/100, 1/20, 1/200, 4/5, 3/100⟩)]),
       ("B", [("D1", ⟨9/10, 1/100, 1/20, 1/200, 4/5, 3/100⟩),
              ("D2", ⟨9/10, 1/100, 1/20, 1/200, 4/5, 3/100⟩)])] := rfl
  refine ⟨rfl, rfl, rfl, hstore, rfl, ?_⟩
  rw [hstore]
  have h1 : pythonRound4 ((9:ℚ)/10) = 9/10 :=
    pythonRound4_eq_self (z := 9000) (by norm_num)
  have h2 : pythonRound4 ((1:ℚ)/100) = 1/100 :=
    pythonRound4_eq_self (z := 100) (by norm_num)
  have h3 : pythonRound4 ((1:ℚ)/20) = 1/20 :=
    pythonRound4_eq_self (z := 500) (by norm_num)
  have h4 : pythonRound4 ((1:ℚ)/200) = 1/200 :=
    pythonRound4_eq_self (z := 50) (by norm_num)
  have h5 : pythonRound4 ((4:ℚ)/5) = 4/5 :=
    pythonRound4_eq_self (z := 8000) (by norm_num)
  have h6 : pythonRound4 ((3:ℚ)/100) = 3/100 :=
    pythonRound4_eq_self (z := 300) (by norm_num)
  have h2' : pythonRound4 ((100:ℚ)⁻¹) = (100:ℚ)⁻¹ :=
    pythonRound4_eq_self (z := 100) (by norm_num)
  have h3' : pythonRound4 ((20:ℚ)⁻¹) = (20:ℚ)⁻¹ :=
    pythonRound4_eq_self (z := 500) (by norm_num)
  have h4' : pythonRound4 ((200:ℚ)⁻¹) = (200:ℚ)⁻¹ :=
    pythonRound4_eq_self (z := 50) (by norm_num)
  simp [describe_dict, h1, h2, h3, h4, h5, h6, h2', h3', h4']

/-! ### C3: plain vs. normalized catalog -/

theorem loadOne_normalized_eq_scale (srcA srcN : DatasetSource) (n : String) :
    DatasetsLoaderNormalized.loadOne srcA srcN n =
      (DatasetsLoader.loadOne srcA srcN n).map scaleEntry := by
  unfold DatasetsLoaderNormalized.loadOne DatasetsLoader.loadOne
  by_cases h : strEndsWith n ".arff"
  · simp only [h, if_true]
    cases hA : srcA n with
    | none => rfl
    | some Xy => simp [Except.map, scaleEntry, h]
  · simp only [h, if_false]
    cases hN : srcN n with
    | none => rfl
    | some Xy => simp [Except.map, scaleEntry, h]

/-- C3 counterexample: the plain catalog variant does not store the feature
matrix unscaled for every identifier — for an `.arff` identifier it stores
the max-absolute-scaled matrix. Here the raw feature matrix `[[2]]` is
stored as `[[1]]`. -/
theorem plain_loader_scales_arff :
    DatasetsLoader.loadAll
        (fun n => if n = "a.arff" then some ([[2]], [[1]]) else none)
        (fun _ => none) ["a.arff"] =
      .ok [("a.arff", ⟨[[1]], [[1]], 1, 1, 1⟩)] ∧
    ([[(1 : ℚ)]] ≠ [[2]]) := by
  constructor
  · have harff : strEndsWith "a.arff" ".arff" = true := by decide
    have hscale : maxAbsScale [[(2 : ℚ)]] = [[1]] := by
      simp [maxAbsScale, colMaxAbs]
    have hOne : DatasetsLoader.loadOne
        (fun n => if n = "a.arff" then some ([[2]], [[1]]) else none)
        (fun _ => none) "a.arff" =
        .ok ("a.arff", ⟨[[1]], [[1]], 1, 1, 1⟩) := by
      unfold DatasetsLoader.loadOne
      rw [harff]
      simp only [if_true]
      rw [hscale]
      rfl
    unfold DatasetsLoader.loadAll
    rw [hOne]
    unfold DatasetsLoader.loadAll
    rfl
  · norm_num

/-- C3 (amended): the normalized catalog variant produces, identifier by
identifier, exactly the plain variant's entries with per-column max-absolute
scaling additionally applied to the feature matrix of named (non-`.arff`)
datasets; `.arff` entries are identical because the plain variant already
scales them; and the two variants fail identically (same error on the same
unresolvable identifier). -/
theorem normalized_loader_refines_plain (srcA srcN : DatasetSource)
    (names : List String) :
    DatasetsLoaderNormalized.loadAll srcA srcN names =
      (DatasetsLoader.loadAll srcA srcN names).map (List.map scaleEntry) := by
  induction names with
  | nil => rfl
  | cons n rest ih =>
      unfold DatasetsLoaderNormalized.loadAll DatasetsLoader.loadAll
      rw [loadOne_normalized_eq_scale, ih]
      cases hOne : DatasetsLoader.loadOne srcA srcN n with
      | error e => rfl
      | ok entry =>
          cases hRest : DatasetsLoader.loadAll srcA srcN rest with
          | error e => rfl
          | ok tail => rfl

/-! ### C2: save-then-load round trip -/

theorem alookup_append_of_none {α : Type} {k : String} {l₁ : List (String × α)}
    (l₂ : List (String × α)) (h : alookup k l₁ = none) :
    alookup k (l₁ ++ l₂) = alookup k l₂ := by
  induction l₁ with
  | nil => rfl
  | cons hd tl ih =>
      by_cases hk : hd.1 = k
      · simp [alookup, hk] at h
      · simp only [alookup, hk, if_false] at h
        show alookup k (hd :: (tl ++ l₂)) = alookup k l₂
        simp only [alookup, hk, if_false]
        exact ih h

theorem ainsert_of_none {α : Type} {k : String} (v : α) {l : List (String × α)}
    (h : alookup k l = none) : ainsert k v l = l ++ [(k, v)] := by
  induction l with
  | nil => rfl
  | cons hd tl ih =>
      by_cases hk : hd.1 = k
      · simp [alookup, hk] at h
      · simp only [alookup, hk, if_false] at h
        simp [ainsert, hk, ih h]

theorem ainsert_append_mid {α : Type} {k : String} (w : α) {acc : List (String × α)}
    (pre : α) (rest : List (String × α)) (h : alookup k acc = none) :
    ainsert k w (acc ++ (k, pre) :: rest) = acc ++ (k, w) :: rest := by
  induction acc with
  | nil => simp [ainsert]
  | cons hd tl ih =>
      by_cases hk : hd.1 = k
      · simp [alookup, hk] at h
      · simp only [alookup, hk, if_false] at h
        show ainsert k w (hd :: (tl ++ (k, pre) :: rest)) = hd :: (tl ++ (k, w) :: rest)
        simp only [ainsert, hk, if_false]
        rw [ih h]

theorem alookup_append_mid_self {α : Type} {k : String} (pre : α)
    (acc rest : List (String × α)) (h : alookup k acc = none) :
    alookup k (acc ++ (k, pre) :: rest) = some pre := by
  rw [alookup_append_of_none _ h]
  simp [alookup]

theorem rowStep_rowFor (s : RawEvaluationResults) (m : String)
    (q : String × EvaluationPipelineResult) :
    rowStep s (rowFor m q) = add_result m q.1 q.2 s := rfl

theorem fold_group (m : String) (tl : List (String × EvaluationPipelineResult))
    (acc : RawEvaluationResults) :
    ∀ pre : List (String × EvaluationPipelineResult),
    alookup m acc = none → (akeys pre ++ akeys tl).Nodup →
    List.foldl rowStep (acc ++ [(m, pre)]) (tl.map (rowFor m)) =
      acc ++ [(m, pre ++ tl)] := by
  induction tl with
  | nil => intro pre _ _; simp
  | cons q tl' ih =>
      intro pre hm hnd
      obtain ⟨d, r⟩ := q
      rw [List.map_cons, List.foldl_cons, rowStep_rowFor]
      have hq1 : (d : String) ∉ akeys pre := by
        rw [List.nodup_append] at hnd
        intro hmem
        exact hnd.2.2 hmem (by rw [akeys_cons]; exact List.mem_cons_self _ _)
      have hstep : add_result m d r (acc ++ [(m, pre)]) =
          acc ++ [(m, pre ++ [(d, r)])] := by
        unfold add_result
        rw [alookup_append_mid_self pre acc [] hm]
        show ainsert m (ainsert d r pre) (acc ++ [(m, pre)]) = _
        rw [ainsert_of_none r (alookup_eq_none_of_not_mem hq1)]
        exact ainsert_append_mid _ pre [] hm
      rw [hstep]
      have hnd' : (akeys (pre ++ [(d, r)]) ++ akeys tl').Nodup := by
        unfold akeys at hnd ⊢
        simpa [List.append_assoc] using hnd
      rw [ih (pre ++ [(d, r)]) hm hnd']
      simp

theorem fold_table (S : RawEvaluationResults) :
    ∀ acc : RawEvaluationResults, (akeys S).Nodup →
    (∀ m ∈ akeys S, alookup m acc = none) →
    (∀ p ∈ S, (akeys p.2).Nodup ∧ p.2 ≠ []) →
    List.foldl rowStep acc (evaluation_results_to_flat_table S) = acc ++ S := by
  induction S with
  | nil => intro acc _ _ _; simp [evaluation_results_to_flat_table]
  | cons p tl ih =>
      intro acc hnd hacc hwf
      obtain ⟨m, inner⟩ := p
      have htable : evaluation_results_to_flat_table ((m, inner) :: tl) =
          (inner.map (rowFor m)) ++ evaluation_results_to_flat_table tl := by
        simp [evaluation_results_to_flat_table]
      rw [htable, List.foldl_append]
      have hm : alookup m acc = none :=
        hacc m (by rw [akeys_cons]; exact List.mem_cons_self _ _)
      obtain ⟨hinnernd, hinnerne⟩ := hwf (m, inner) (List.mem_cons_self _ _)
      have hgroup : List.foldl rowStep acc (inner.map (rowFor m)) =
          acc ++ [(m, inner)] := by
        cases inner with
        | nil => exact absurd rfl hinnerne
        | cons q tl' =>
            obtain ⟨d, r⟩ := q
            rw [List.map_cons, List.foldl_cons, rowStep_rowFor]
            have hstep : add_result m d r acc = acc ++ [(m, [(d, r)])] := by
              unfold add_result
              rw [hm]
              exact ainsert_of_none _ hm
            rw [hstep]
            have hnd' : (akeys [(d, r)] ++ akeys tl').Nodup := by
              unfold akeys at hinnernd ⊢
              simpa using hinnernd
            rw [fold_group m tl' acc [(d, r)] hm hnd']
            simp
      rw [hgroup]
      have hndtl : (akeys tl).Nodup := by
        rw [akeys_cons, List.nodup_cons] at hnd
        exact hnd.2
      have hmtl : m ∉ akeys tl := by
        rw [akeys_cons, List.nodup_cons] at hnd
        exact hnd.1
      have hacc' : ∀ m' ∈ akeys tl, alookup m' (acc ++ [(m, inner)]) = none := by
        intro m' hm'
        have hne : m ≠ m' := fun hh => hmtl (hh ▸ hm')
        rw [alookup_append_of_none _ (hacc m' (by rw [akeys_cons]; exact List.mem_cons_of_mem _ hm'))]
        simp [alookup, hne]
      rw [ih (acc ++ [(m, inner)]) hndtl hacc'
        (fun p hp => hwf p (List.mem_cons_of_mem _ hp))]
      simp

/-- C2: saving a repository's store and loading it back through the persisted
file reproduces the store exactly — the same pairs with the same metric
values at full precision — so save-then-load is a fixed point (the empty
store included). -/
theorem save_then_load_fixed_point (repo : MetricsPipelineRepository)
    (fs : FileSystem) (hcsv : strEndsWith repo.csv_file_path ".csv" = true)
    (hwf : StoreWF repo.raw_evaluation_results) :
    load_from_file repo (save_to_file repo fs) = .ok repo := by
  have hdecode : flat_table_to_evaluation_results
      (evaluation_results_to_flat_table repo.raw_evaluation_results) =
      repo.raw_evaluation_results := by
    unfold flat_table_to_evaluation_results
    simpa using
      fold_table repo.raw_evaluation_results [] hwf.1 (fun _ _ => rfl) hwf.2
  unfold load_from_file save_to_file
  rw [hcsv]
  simp [hdecode]

/-- Witness for C2 at a two-model store with fractional metric values. -/
theorem save_then_load_fixed_point_witness :
    load_from_file
      { csv_file_path := "m.csv"
        raw_evaluation_results :=
          [("A", [("D1", ⟨9/10, 1/100, 1/20, 1/200, 4/5, 3/100⟩)]),
           ("B", [("D1", ⟨1/3, 0, 1/7, 0, 2/3, 0⟩), ("D2", ⟨1, 0, 0, 0, 1, 0⟩)])] }
      (save_to_file
        { csv_file_path := "m.csv"
          raw_evaluation_results :=
            [("A", [("D1", ⟨9/10, 1/100, 1/20, 1/200, 4/5, 3/100⟩)]),
             ("B", [("D1", ⟨1/3, 0, 1/7, 0, 2/3, 0⟩), ("D2", ⟨1, 0, 0, 0, 1, 0⟩)])] }
        (fun _ => none)) =
    .ok { csv_file_path := "m.csv"
          raw_evaluation_results :=
            [("A", [("D1", ⟨9/10, 1/100, 1/20, 1/200, 4/5, 3/100⟩)]),
             ("B", [("D1", ⟨1/3, 0, 1/7, 0, 2/3, 0⟩), ("D2", ⟨1, 0, 0, 0, 1, 0⟩)])] } := by
  refine save_then_load_fixed_point _ _ (by decide) ⟨by decide, ?_⟩
  intro p hp
  rcases List.mem_cons.mp hp with h | h
  · rw [h]
    exact ⟨by decide, by simp⟩
  · rcases List.mem_cons.mp h with h' | h'
    · rw [h']
      exact ⟨by decide, by simp⟩
    · simp at h'

/-! ### C8: presentation rounding -/

theorem pythonRound4_scaled_int (q : ℚ) :
    ∃ z : ℤ, pythonRound4 q = (z : ℚ) / 10000 := ⟨_, rfl⟩

/-- C8: `describe_dict` yields exactly one presentation row per
(model, dataset) pair of the store (the rows of the persisted flat table),
with every one of the six metric values replaced by its 4-decimal rounding
(each presented value is an integer number of 1/10000); producing the rows
leaves the store untouched, so a subsequent save persists the original
full-precision values — decoding the saved table still reproduces the
store exactly. -/
theorem describe_dict_spec (S : RawEvaluationResults) (hwf : StoreWF S) :
    describe_dict S = (evaluation_results_to_flat_table S).map
      (fun row =>
        { model := row.model, dataset := row.dataset
          accuracy := pythonRound4 row.accuracy
          accuracy_std := pythonRound4 row.accuracy_std
          hamming_loss := pythonRound4 row.hamming_loss
          hamming_loss_std := pythonRound4 row.hamming_loss_std
          f1 := pythonRound4 row.f1
          f1_std := pythonRound4 row.f1_std }) ∧
    (∀ row ∈ describe_dict S, ∃ z₁ z₂ z₃ z₄ z₅ z₆ : ℤ,
      row.accuracy = (z₁ : ℚ) / 10000 ∧ row.accuracy_std = (z₂ : ℚ) / 10000 ∧
      row.hamming_loss = (z₃ : ℚ) / 10000 ∧
      row.hamming_loss_std = (z₄ : ℚ) / 10000 ∧
      row.f1 = (z₅ : ℚ) / 10000 ∧ row.f1_std = (z₆ : ℚ) / 10000) ∧
    flat_table_to_evaluation_results (evaluation_results_to_flat_table S) = S := by
  have hmap : describe_dict S = (evaluation_results_to_flat_table S).map
      (fun row =>
        ({ model := row.model, dataset := row.dataset
           accuracy := pythonRound4 row.accuracy
           accuracy_std := pythonRound4 row.accuracy_std
           hamming_loss := pythonRound4 row.hamming_loss
           hamming_loss_std := pythonRound4 row.hamming_loss_std
           f1 := pythonRound4 row.f1
           f1_std := pythonRound4 row.f1_std } : DescribeRow)) := by
    clear hwf
    unfold describe_dict evaluation_results_to_flat_table
    induction S with
    | nil => rfl
    | cons p tl ih =>
        simp only [List.flatMap_cons, List.map_append, List.map_map, ih]
        simp [rowFor, Function.comp]
  refine ⟨hmap, ?_, ?_⟩
  · intro row hrow
    rw [hmap] at hrow
    obtain ⟨row', _, hrow'⟩ := List.mem_map.mp hrow
    rw [← hrow']
    obtain ⟨z₁, h₁⟩ := pythonRound4_scaled_int row'.accuracy
    obtain ⟨z₂, h₂⟩ := pythonRound4_scaled_int row'.accuracy_std
    obtain ⟨z₃, h₃⟩ := pythonRound4_scaled_int row'.hamming_loss
    obtain ⟨z₄, h₄⟩ := pythonRound4_scaled_int row'.hamming_loss_std
    obtain ⟨z₅, h₅⟩ := pythonRound4_scaled_int row'.f1
    obtain ⟨z₆, h₆⟩ := pythonRound4_scaled_int row'.f1_std
    exact ⟨z₁, z₂, z₃, z₄, z₅, z₆, h₁, h₂, h₃, h₄, h₅, h₆⟩
  · unfold flat_table_to_evaluation_results
    simpa using fold_table S [] hwf.1 (fun _ _ => rfl) hwf.2

/-- Witness for C8 at a store holding a value (1/3) that 4-decimal rounding
must alter: the saved table still decodes to the exact store. -/
theorem describe_dict_spec_witness :
    describe_dict [("A", [("D1", ⟨1/3, 0, 0, 0, 0, 0⟩)])] =
      (evaluation_results_to_flat_table [("A", [("D1", ⟨1/3, 0, 0, 0, 0, 0⟩)])]).map
        (fun row =>
          { model := row.model, dataset := row.dataset
            accuracy := pythonRound4 row.accuracy
            accuracy_std := pythonRound4 row.accuracy_std
            hamming_loss := pythonRound4 row.hamming_loss
            hamming_loss_std := pythonRound4 row.hamming_loss_std
            f1 := pythonRound4 row.f1
            f1_std := pythonRound4 row.f1_std }) ∧
    flat_table_to_evaluation_results
      (evaluation_results_to_flat_table [("A", [("D1", ⟨1/3, 0, 0, 0, 0, 0⟩)])]) =
      [("A", [("D1", ⟨1/3, 0, 0, 0, 0, 0⟩)])] := by
  have h := describe_dict_spec [("A", [("D1", ⟨1/3, 0, 0, 0, 0, 0⟩)])]
    ⟨by decide, ?_⟩
  · exact ⟨h.1, h.2.2⟩
  · intro p hp
    rcases List.mem_cons.mp hp with h' | h'
    · rw [h']
      exact ⟨by decide, by simp⟩
    · simp at h'

end PSG
